import Mathlib

/-
Verification of the Car Rental System (CRS, src/main.c): a shallow embedding
of its record stores, rental pricing, registration checks and the rent-a-car
flow, with theorems settling the specified properties.

Conventions of the embedding:
- C structs become Lean structures; fixed-width char arrays become String
  (value level) or List Nat (byte level, for the on-disk record layout).
- The binary record files become lists of records, or lists of bytes where
  the byte layout matters; the file system becomes an association list from
  path to contents where the path arithmetic matters.
- Machine integers become Nat/Int (no overflow occurs on the reachable
  inputs: all scanned integers fit well within int range); C doubles whose
  numeric value matters become Rat, and doubles that are only copied
  byte-for-byte become their 64-bit patterns as Nat.
- Interactive input (scanf/fgets/getch) becomes explicit parameters holding
  the values the operator would type, in the order the code reads them.
-/

namespace CRS

/-- Value-level image of `struct CarModel` (src/main.c): model name, company,
year, daily rental rate, passenger capacity, fuel efficiency, color and the
availability flag. -/
structure CarModel where
  model_name : String
  company : String
  year : Nat
  rental_rate : Rat
  passenger_capacity : Nat
  fuel_efficiency : Rat
  color : String
  available_status : Bool
deriving DecidableEq, Inhabited

/-- Value-level image of `struct Users` (src/main.c). -/
structure Users where
  fullname : String
  address : String
  number : String
  email : String
  username : String
  password : String
deriving DecidableEq, Inhabited

/-- Value-level image of `struct Rental` (src/main.c). Of the embedded
`rentingUser` record only the username field is ever written by `rentCar`
(via strncpy) or read back, so the embedding keeps just that field. -/
structure Rental where
  selectedCar : CarModel
  rentingUsername : String
  pickupDate : String
  returnDate : String
  totalCost : Rat
  selectedCarIndex : Int
  rentalID : String
  time : String
deriving DecidableEq, Inhabited

/- ---------------------------------------------------------------------
   calculateRentalDays (src/main.c lines 1085-1133)
   --------------------------------------------------------------------- -/

/-- Characters skipped by the `%d` conversion of sscanf (C `isspace` in the
POSIX locale): space, tab, newline, vertical tab, form feed, carriage
return. -/
def isScanfSpace (c : Char) : Bool :=
  c == ' ' || c == '\t' || c == '\n' || c == '\r' || c.toNat == 11 || c.toNat == 12

/-- Value of a digit string, most significant digit first. -/
def digitsVal (ds : List Char) : Nat :=
  ds.foldl (fun a c => a * 10 + (c.toNat - 48)) 0

/-- One `%d` conversion of sscanf: skip leading white space, read an optional
sign and then a nonempty maximal run of digits; fail when no digit follows.
Values are unbounded Int: on the strings reachable from the date format
check every field has at most four digits, so int overflow cannot occur. -/
def scanInt (cs : List Char) : Option (Int × List Char) :=
  let cs2 := cs.dropWhile isScanfSpace
  match cs2 with
  | '-' :: rest =>
    let ds := rest.takeWhile Char.isDigit
    if ds.isEmpty then none
    else some (-(digitsVal ds : Int), rest.dropWhile Char.isDigit)
  | '+' :: rest =>
    let ds := rest.takeWhile Char.isDigit
    if ds.isEmpty then none
    else some ((digitsVal ds : Int), rest.dropWhile Char.isDigit)
  | _ =>
    let ds := cs2.takeWhile Char.isDigit
    if ds.isEmpty then none
    else some ((digitsVal ds : Int), cs2.dropWhile Char.isDigit)

/-- The whole conversion `sscanf(s, "%d-%d-%d", &y, &m, &d) == 3`: three
`%d` conversions separated by literal hyphen matches; any trailing input
after the third integer is ignored, exactly as sscanf ignores it. -/
def sscanf3 (cs : List Char) : Option (Int × Int × Int) :=
  match scanInt cs with
  | none => none
  | some (a, rest) =>
    match rest with
    | '-' :: rest2 =>
      match scanInt rest2 with
      | none => none
      | some (b, rest3) =>
        match rest3 with
        | '-' :: rest4 =>
          match scanInt rest4 with
          | none => none
          | some (c, _) => some (a, b, c)
        | _ => none
    | _ => none

/-- Day number of a proleptic Gregorian calendar date counted from
1970-01-01, for a month already normalised into 1..12; the day component may
be any integer (day d means d-1 days after the first of the month), matching
how mktime canonicalises out-of-range tm_mday. -/
def daysFromCivil (y m d : Int) : Int :=
  let yAdj := if m ≤ 2 then y - 1 else y
  let era := yAdj.fdiv 400
  let yoe := yAdj - era * 400
  let mp := (m + 9) % 12
  let doy := (153 * mp + 2).fdiv 5 + d - 1
  let doe := yoe * 365 + yoe.fdiv 4 - yoe.fdiv 100 + doy
  era * 146097 + doe - 719468

/-- The mktime call of calculateRentalDays, in days instead of seconds: the
code builds a `struct tm` with tm_year = y - 1900, tm_mon = m - 1,
tm_mday = d and all time-of-day fields zero, and mktime canonicalises
out-of-range month values by carrying into the year. Both converted times
are midnights, so the later division of their difference by 86400 seconds is
exact and the factor 86400 cancels; the embedding therefore works in days
directly. mktime failure (-1) is unreachable for the values produced here
with a 64-bit time_t, so it is not modelled. -/
def mktimeDays (y m d : Int) : Int :=
  let ym := y * 12 + (m - 1)
  let ny := ym.fdiv 12
  let nm := ym - 12 * ny
  daysFromCivil ny (nm + 1) d

/-- The format precheck of calculateRentalDays on one date string: length
exactly 10 with hyphens at positions 4 and 7. -/
def dateFormatOk (s : String) : Bool :=
  s.length == 10 && s.data.getD 4 ' ' == '-' && s.data.getD 7 ' ' == '-'

/-- The parsed time of one date string: its three sscanf components fed
through mktime, when the conversion succeeds. -/
def parsedTime (s : String) : Option Int :=
  (sscanf3 s.data).map (fun t => mktimeDays t.1 t.2.1 t.2.2)

/-- calculateRentalDays (src/main.c lines 1085-1133). Returns the whole-day
difference of the two dates, or -1 on a format error, a failed sscanf
conversion, or a return date earlier than the pickup date. The C code
computes seconds = difftime(returnTime, pickupTime) and then
days = (int)(seconds / 86400); both times are midnights so the quotient is
exact and the embedding keeps the day count throughout. -/
def calculateRentalDays (pickupDate returnDate : String) : Int :=
  if dateFormatOk pickupDate && dateFormatOk returnDate then
    match sscanf3 pickupDate.data, sscanf3 returnDate.data with
    | some (py, pm, pd), some (ry, rm, rd) =>
      let pickupTime := mktimeDays py pm pd
      let returnTime := mktimeDays ry rm rd
      if returnTime - pickupTime < 0 then -1
      else returnTime - pickupTime
    | _, _ => -1
  else -1

end CRS
namespace CRS

/-- C4: calculateRentalDays fails (returning the code's error value -1)
exactly when a date string fails the length-10 hyphen format check, or its
components do not all convert under sscanf, or the return date is earlier
than the pickup date; otherwise it returns the whole-day difference of the
two parsed dates, with 0 a valid same-day result; and on the three concrete
examples it returns 4, fails, and returns 0 respectively. -/
theorem calculateRentalDays_spec (p r : String) :
    (calculateRentalDays p r = -1 ↔
      dateFormatOk p = false ∨ dateFormatOk r = false ∨
      parsedTime p = none ∨ parsedTime r = none ∨
      ∃ pt rt, parsedTime p = some pt ∧ parsedTime r = some rt ∧ rt - pt < 0) ∧
    (∀ pt rt, parsedTime p = some pt → parsedTime r = some rt →
      dateFormatOk p = true → dateFormatOk r = true → 0 ≤ rt - pt →
      calculateRentalDays p r = rt - pt) ∧
    calculateRentalDays ("2024-01-01") ("2024-01-05") = 4 ∧
    calculateRentalDays ("2024-01-05") ("2024-01-01") = -1 ∧
    calculateRentalDays ("2024-01-01") ("2024-01-01") = 0 := by
  refine ⟨?_, ?_, by decide, by decide, by decide⟩
  · cases hp : dateFormatOk p <;> cases hr : dateFormatOk r <;>
      rcases hsp : sscanf3 p.data with _ | ⟨⟨py, pm, pd⟩⟩ <;>
      rcases hsr : sscanf3 r.data with _ | ⟨⟨ry, rm, rd⟩⟩ <;>
      simp [calculateRentalDays, parsedTime, hp, hr, hsp, hsr] <;>
      omega
  · intro pt rt hsp hsr hfp hfr hd
    unfold calculateRentalDays
    unfold parsedTime at hsp hsr
    obtain ⟨⟨py, pm, pd⟩, hsp2, hpteq⟩ := Option.map_eq_some'.mp hsp
    obtain ⟨⟨ry, rm, rd⟩, hsr2, hrteq⟩ := Option.map_eq_some'.mp hsr
    simp only [hfp, hfr, Bool.and_self, if_true, hsp2, hsr2]
    simp only at hpteq hrteq
    rw [hpteq, hrteq]
    omega

/-- Witness for C4: applying the theorem at concrete dates. -/
theorem calculateRentalDays_spec_witness :
    calculateRentalDays ("2024-03-01") ("2024-03-11") = 10 := by
  have h := (calculateRentalDays_spec ("2024-03-01") ("2024-03-11")).2.1
    (mktimeDays 2024 3 1) (mktimeDays 2024 3 11)
    (by decide) (by decide) (by decide) (by decide) (by decide)
  rw [h]; decide

end CRS

namespace CRS

/- ---------------------------------------------------------------------
   rentCar (src/main.c lines 1135-1279) and its helpers
   --------------------------------------------------------------------- -/

/-- The available-car filter of rentCar: its read loop stores every record
into the next slot and advances the slot index only when available_status
is set, leaving exactly the available records in file order. The spec calls
this listAvailableCars. -/
def listAvailableCars (cars : List CarModel) : List CarModel :=
  cars.filter (fun c => c.available_status)

/-- The availability-update loop of rentCar: scan the car database for the
first record whose model_name equals the rented model, clear its
available_status in place (fseek back one record, fwrite), and stop. -/
def flipFirstByName : List CarModel → String → List CarModel
  | [], _ => []
  | c :: cs, name =>
    if c.model_name == name then { c with available_status := false } :: cs
    else c :: flipFirstByName cs name

/-- The three confirmation spellings rentCar accepts. -/
def yesChoice (s : String) : Bool :=
  s == "yes" || s == "Yes" || s == "YES"

/-- Outcome of one rentCar call: the car database, the rental records file,
and whether the trailing `while (!rentalCompleted);` loop hangs the process
(it busy-loops forever exactly when the confirmation was not yes). -/
structure RentCarResult where
  cars : List CarModel
  rentals : List Rental
  hangs : Bool
deriving DecidableEq, Inhabited

/-- rentCar (src/main.c lines 1135-1279). Parameters carry the operator's
inputs in the order the code reads them: the selected index, the two dates
and the confirmation answer; rentalID and timeStamp stand for the values of
generateUniqueRentalID and ctime. Note the control flow of the source: after
a valid index is chosen, the availability flip and the rental append happen
unconditionally - the confirmation answer only selects the final message and
whether the trailing busy loop hangs - and the -1 error value of
calculateRentalDays flows straight into totalCost. -/
def rentCar (cars : List CarModel) (rentals : List Rental) (user : Users)
    (selectedCarIndex : Int) (pickupDate returnDate : String)
    (confirmChoice : String) (rentalID timeStamp : String) : RentCarResult :=
  let availableCarModels := listAvailableCars cars
  if availableCarModels.length = 0 then ⟨cars, rentals, false⟩
  else if selectedCarIndex = 0 then ⟨cars, rentals, false⟩
  else if selectedCarIndex < 1 ∨ (availableCarModels.length : Int) < selectedCarIndex then
    ⟨cars, rentals, false⟩
  else
    let selectedCar := availableCarModels.getD (selectedCarIndex - 1).toNat default
    let totalCost : Rat :=
      selectedCar.rental_rate * ((calculateRentalDays pickupDate returnDate : Int) : Rat)
    let rentalCompleted := yesChoice confirmChoice
    let cars2 := flipFirstByName cars selectedCar.model_name
    let rental : Rental :=
      { selectedCar := selectedCar
        rentingUsername := user.username
        pickupDate := pickupDate
        returnDate := returnDate
        totalCost := totalCost
        selectedCarIndex := selectedCarIndex
        rentalID := rentalID
        time := timeStamp }
    ⟨cars2, rentals ++ [rental], !rentalCompleted⟩

/-- A concrete car used in the closed theorems below. -/
def carOne : CarModel :=
  { model_name := "Civic"
    company := "Honda"
    year := 2020
    rental_rate := 100
    passenger_capacity := 4
    fuel_efficiency := 30
    color := "red"
    available_status := true }

/-- A concrete registered user used in the closed theorems below. -/
def userBob : Users :=
  { fullname := "Bob B"
    address := "KTM"
    number := "9800000000"
    email := "bob@mail.com"
    username := "bob"
    password := "pw" }

end CRS

namespace CRS

/-- C1: contrary to the claim, once a valid car index was selected rentCar
appends the Rental record and clears the chosen car's availability even when
the confirmation answer is not yes and even when calculateRentalDays failed
with its error value -1 (which flows into a negative totalCost); the
declined rental then hangs in the trailing busy loop after the writes. -/
theorem rentCar_writes_without_confirmation :
    yesChoice ("no") = false ∧
    calculateRentalDays ("2024-01-05") ("2024-01-01") = -1 ∧
    (rentCar [carOne] [] userBob 1 ("2024-01-05") ("2024-01-01")
      ("no") ("R12345") ("ts")).rentals.length = 1 ∧
    (rentCar [carOne] [] userBob 1 ("2024-01-05") ("2024-01-01")
      ("no") ("R12345") ("ts")).cars = [{ carOne with available_status := false }] ∧
    (rentCar [carOne] [] userBob 1 ("2024-01-05") ("2024-01-01")
      ("no") ("R12345") ("ts")).hangs = true ∧
    ((rentCar [carOne] [] userBob 1 ("2024-01-05") ("2024-01-01")
      ("no") ("R12345") ("ts")).rentals.getD 0 default).totalCost = -100 := by
  refine ⟨by decide, by decide, by decide, by decide, by decide, ?_⟩
  have h : ((rentCar [carOne] [] userBob 1 ("2024-01-05") ("2024-01-01")
      ("no") ("R12345") ("ts")).rentals.getD 0 default).totalCost
      = (100 : Rat) * ((-1 : Int) : Rat) := rfl
  rw [h]
  norm_num

/-- An unavailable car sharing its model name with carTwin2. -/
def carTwin1 : CarModel :=
  { model_name := "ModelX"
    company := "CompA"
    year := 2018
    rental_rate := 50
    passenger_capacity := 4
    fuel_efficiency := 25
    color := "blue"
    available_status := false }

/-- The only available car in the twin database; first twin comes earlier in
file order. -/
def carTwin2 : CarModel :=
  { carTwin1 with company := "CompB", rental_rate := 100, available_status := true }

/-- C5 counterexample: with two cars sharing a model name, renting the only
available car (the second twin, with a confirmed yes and valid dates) flips
the first twin instead, so the rented car is still present in the next
listing of available cars. -/
theorem rentCar_rented_car_still_listed :
    let res := rentCar [carTwin1, carTwin2] [] userBob 1 ("2024-01-01")
      ("2024-01-05") ("yes") ("R1") ("ts")
    listAvailableCars [carTwin1, carTwin2] = [carTwin2] ∧
    (res.rentals.getD 0 default).selectedCar = carTwin2 ∧
    res.rentals.length = 1 ∧
    carTwin2 ∈ listAvailableCars res.cars := by
  decide

/-- When the available-car filter is a single car and model names are
pairwise distinct, clearing the first record with the rented model name
leaves no available car. -/
theorem flipFirst_clears_available (cars : List CarModel) (c : CarModel)
    (huniq : cars.Pairwise (fun a b => a.model_name ≠ b.model_name))
    (havail : listAvailableCars cars = [c]) :
    listAvailableCars (flipFirstByName cars c.model_name) = [] := by
  induction cars with
  | nil => simp [listAvailableCars] at havail
  | cons h t ih =>
    rw [List.pairwise_cons] at huniq
    rw [listAvailableCars, List.filter_cons] at havail
    by_cases hav : h.available_status = true
    · rw [if_pos (by simp [hav])] at havail
      obtain ⟨rfl, hft⟩ := List.cons_eq_cons.mp havail
      simp [flipFirstByName, listAvailableCars, List.filter_cons, hft]
    · rw [if_neg (by simp [hav])] at havail
      have hmem : c ∈ List.filter (fun x => x.available_status) t := by
        rw [havail]
        exact List.mem_singleton_self c
      have hct : c ∈ t := List.mem_of_mem_filter hmem
      have hne : (h.model_name == c.model_name) = false := by
        simp only [beq_eq_false_iff_ne, ne_eq]
        exact huniq.1 c hct
      simp only [flipFirstByName, hne, Bool.false_eq_true, if_false]
      rw [listAvailableCars, List.filter_cons, if_neg (by simp [hav])]
      exact ih huniq.2 havail

end CRS

namespace CRS

/-- C5 (amended): provided no two cars share a model name, renting the only
available car (index 1 into the filtered list, valid dates, a confirmed
yes) removes it from the next listing of available cars and appends exactly
one Rental record whose totalCost is the car's daily rate times the day
count, the day count being nonnegative. -/
theorem rentCar_only_available_car (cars : List CarModel) (rentals : List Rental)
    (user : Users) (c : CarModel) (p r rid ts : String) (d : Int)
    (huniq : cars.Pairwise (fun a b => a.model_name ≠ b.model_name))
    (havail : listAvailableCars cars = [c])
    (hdays : calculateRentalDays p r = d) (hd : 0 ≤ d) :
    ∃ rec : Rental,
      (rentCar cars rentals user 1 p r ("yes") rid ts).rentals = rentals ++ [rec] ∧
      rec.selectedCar = c ∧
      rec.totalCost = c.rental_rate * (d : Rat) ∧
      0 ≤ d ∧
      listAvailableCars (rentCar cars rentals user 1 p r ("yes") rid ts).cars = [] ∧
      c ∉ listAvailableCars (rentCar cars rentals user 1 p r ("yes") rid ts).cars ∧
      (rentCar cars rentals user 1 p r ("yes") rid ts).rentals.length
        = rentals.length + 1 := by
  subst hdays
  have hres : rentCar cars rentals user 1 p r ("yes") rid ts =
      ⟨flipFirstByName cars c.model_name,
       rentals ++
         [{ selectedCar := c
            rentingUsername := user.username
            pickupDate := p
            returnDate := r
            totalCost := c.rental_rate * ((calculateRentalDays p r : Int) : Rat)
            selectedCarIndex := 1
            rentalID := rid
            time := ts }],
       false⟩ := by
    rw [rentCar, havail]
    norm_num [yesChoice]
  have hflip := flipFirst_clears_available cars c huniq havail
  refine ⟨_, by rw [hres], rfl, rfl, hd, ?_, ?_, by rw [hres]; simp⟩
  · rw [hres]
    exact hflip
  · rw [hres]
    simp only [hflip]
    exact List.not_mem_nil c

end CRS

namespace CRS

/-- Witness for C5 (amended): a one-car database, rented with valid dates. -/
theorem rentCar_only_available_car_witness :
    ∃ rec : Rental,
      (rentCar [carOne] [] userBob 1 ("2024-01-01") ("2024-01-05") ("yes")
        ("Rx") ("ts")).rentals = [] ++ [rec] ∧
      rec.selectedCar = carOne ∧
      rec.totalCost = carOne.rental_rate * ((4 : Int) : Rat) ∧
      0 ≤ (4 : Int) ∧
      listAvailableCars (rentCar [carOne] [] userBob 1 ("2024-01-01")
        ("2024-01-05") ("yes") ("Rx") ("ts")).cars = [] ∧
      carOne ∉ listAvailableCars (rentCar [carOne] [] userBob 1 ("2024-01-01")
        ("2024-01-05") ("yes") ("Rx") ("ts")).cars ∧
      (rentCar [carOne] [] userBob 1 ("2024-01-01") ("2024-01-05") ("yes")
        ("Rx") ("ts")).rentals.length = List.length ([] : List Rental) + 1 :=
  rentCar_only_available_car [carOne] [] userBob carOne ("2024-01-01")
    ("2024-01-05") ("Rx") ("ts") 4 (by simp) (by decide) (by decide) (by decide)

end CRS

namespace CRS

/- ---------------------------------------------------------------------
   updateUser (src/main.c lines 417-503) and updateCar (lines 607-705)
   --------------------------------------------------------------------- -/

/-- Common shape of updateUser and updateCar: read records sequentially
until the predicate first matches, then seek back exactly one record length
from the current read position and overwrite just that record; None when no
record matches (the not-found report, nothing written). The seek arithmetic
(position (i+1)*size after reading record i, minus one record size)
makes the overwrite land on record i, which is what the replacement of the
i-th list entry expresses. -/
def updateFirst (p : α → Bool) (mutate : α → α) : List α → Option (List α)
  | [] => none
  | x :: xs =>
    if p x then some (mutate x :: xs)
    else (updateFirst p mutate xs).map (fun ys => x :: ys)

/-- updateUser: update-in-place keyed by username; the mutator is whichever
single-field replacement the menu choice selects. -/
def updateUser (usernameToFind : String) (mutate : Users → Users)
    (db : List Users) : Option (List Users) :=
  updateFirst (fun user => user.username == usernameToFind) mutate db

/-- updateCar: update-in-place keyed by model name; the mutator is whichever
single-field replacement the menu choice selects. -/
def updateCar (modelToFind : String) (mutate : CarModel → CarModel)
    (db : List CarModel) : Option (List CarModel) :=
  updateFirst (fun car => car.model_name == modelToFind) mutate db

/-- updateFirst reports not-found (and leaves the file alone) exactly when
no record satisfies the predicate. -/
theorem updateFirst_none_iff (p : α → Bool) (mutate : α → α) (db : List α) :
    updateFirst p mutate db = none ↔ ∀ x ∈ db, p x = false := by
  induction db with
  | nil => simp [updateFirst]
  | cons h t ih =>
    by_cases hp : p h = true
    · simp [updateFirst, hp]
    · simp [updateFirst, hp, Option.map_eq_none', ih]

/-- When updateFirst succeeds it has replaced the first matching record and
nothing else: same length, every other position byte-identical. -/
theorem updateFirst_some_spec (p : α → Bool) (mutate : α → α) :
    ∀ (db db' : List α), updateFirst p mutate db = some db' →
    ∃ i x, db.get? i = some x ∧ p x = true ∧
      (∀ j, j < i → ∀ y, db.get? j = some y → p y = false) ∧
      db' = db.set i (mutate x) ∧
      db'.length = db.length ∧
      (∀ j, j ≠ i → db'.get? j = db.get? j) := by
  intro db
  induction db with
  | nil => intro db' h; simp [updateFirst] at h
  | cons hd t ih =>
    intro db' h
    rw [updateFirst] at h
    by_cases hp : p hd = true
    · rw [if_pos hp] at h
      injection h with h
      subst h
      refine ⟨0, hd, rfl, hp, ?_, rfl, by simp, ?_⟩
      · intro j hj y
        omega
      · intro j hj
        cases j with
        | zero => exact absurd rfl hj
        | succ n => simp
    · rw [if_neg hp] at h
      obtain ⟨ys, hys, rfl⟩ := Option.map_eq_some'.mp h
      obtain ⟨i, x, hget, hpx, hbefore, hset, hlen, hother⟩ := ih ys hys
      refine ⟨i + 1, x, by simpa using hget, hpx, ?_, ?_, by simp [hlen], ?_⟩
      · intro j hj y hy
        cases j with
        | zero =>
          simp only [List.get?_cons_zero, Option.some.injEq] at hy
          subst hy
          exact eq_false_of_ne_true hp
        | succ n =>
          exact hbefore n (by omega) y (by simpa using hy)
      · rw [hset]
        rfl
      · intro j hj
        cases j with
        | zero => simp
        | succ n => simpa using hother n (by omega)

/-- C6: updateUser (keyed by username) and updateCar (keyed by model name)
overwrite exactly the first matching record when one exists, leaving every
other record and its position unchanged, and report not-found with no
mutation of the file when no record matches. -/
theorem updateInPlace_frame (key : String) (mutU : Users → Users)
    (mutC : CarModel → CarModel) (dbU : List Users) (dbC : List CarModel) :
    (updateUser key mutU dbU = none ↔ ∀ u ∈ dbU, (u.username == key) = false) ∧
    (∀ db', updateUser key mutU dbU = some db' →
      ∃ i u, dbU.get? i = some u ∧ (u.username == key) = true ∧
        (∀ j, j < i → ∀ v, dbU.get? j = some v → (v.username == key) = false) ∧
        db' = dbU.set i (mutU u) ∧ db'.length = dbU.length ∧
        (∀ j, j ≠ i → db'.get? j = dbU.get? j)) ∧
    (updateCar key mutC dbC = none ↔ ∀ c ∈ dbC, (c.model_name == key) = false) ∧
    (∀ db', updateCar key mutC dbC = some db' →
      ∃ i c, dbC.get? i = some c ∧ (c.model_name == key) = true ∧
        (∀ j, j < i → ∀ v, dbC.get? j = some v → (v.model_name == key) = false) ∧
        db' = dbC.set i (mutC c) ∧ db'.length = dbC.length ∧
        (∀ j, j ≠ i → db'.get? j = dbC.get? j)) :=
  ⟨updateFirst_none_iff _ _ _,
   fun db' h => updateFirst_some_spec _ _ _ db' h,
   updateFirst_none_iff _ _ _,
   fun db' h => updateFirst_some_spec _ _ _ db' h⟩

/-- Witness for C6: updating Bob's address in a one-record database. -/
theorem updateInPlace_frame_witness :
    ∃ i u, [userBob].get? i = some u ∧ (u.username == userBob.username) = true ∧
      (∀ j, j < i → ∀ v, [userBob].get? j = some v →
        (v.username == userBob.username) = false) ∧
      [{ userBob with address := ("PKR") }] = [userBob].set i
        ({ u with address := ("PKR") }) ∧
      ([{ userBob with address := ("PKR") }] : List Users).length
        = [userBob].length ∧
      (∀ j, j ≠ i → ([{ userBob with address := ("PKR") }] : List Users).get? j
        = [userBob].get? j) :=
  (updateInPlace_frame (userBob.username) (fun u => { u with address := ("PKR") })
    id [userBob] []).2.1 _ (by decide)

end CRS

namespace CRS

/-- Case 8 of updateCar's field menu (src/main.c lines 685-691): read the
entered status; only a nonzero entry assigns available_status = true - there
is no branch assigning false, so an entry of 0 leaves the record's stored
flag as it was. -/
def applyCarStatusChoice (car : CarModel) (car_status : Int) : CarModel :=
  if car_status ≠ 0 then { car with available_status := true } else car

/-- An updateFirst whose mutator acts as the identity writes the record it
found back unchanged, leaving the whole file equal. -/
theorem updateFirst_id (p : α → Bool) (mutate : α → α)
    (hmut : ∀ x, mutate x = x) :
    ∀ db db', updateFirst p mutate db = some db' → db' = db := by
  intro db
  induction db with
  | nil =>
    intro db' h
    simp [updateFirst] at h
  | cons hd t ih =>
    intro db' h
    rw [updateFirst] at h
    by_cases hp : p hd = true
    · rw [if_pos hp] at h
      injection h with h
      rw [← h, hmut]
    · rw [if_neg hp] at h
      obtain ⟨ys, hys, rfl⟩ := Option.map_eq_some'.mp h
      rw [ih ys hys]

/-- C9: through the admin update menu's availability option the flag can
only be set, never cleared: entering 0 writes the record back with its
previously stored value (the whole database is unchanged), and for any
entered status a record whose flag was set still has it set afterwards. -/
theorem updateCar_status_cannot_clear (db : List CarModel) (name : String)
    (s : Int) :
    (∀ car, applyCarStatusChoice car 0 = car) ∧
    (∀ db', updateCar name (fun c => applyCarStatusChoice c 0) db = some db' →
      db' = db) ∧
    (∀ db' j c c',
      updateCar name (fun c => applyCarStatusChoice c s) db = some db' →
      db.get? j = some c → db'.get? j = some c' →
      c.available_status = true → c'.available_status = true) := by
  refine ⟨?_, ?_, ?_⟩
  · intro car
    simp [applyCarStatusChoice]
  · intro db' h
    exact updateFirst_id _ _ (fun c => by simp [applyCarStatusChoice]) db db' h
  · intro db' j c c' h hget hget' hav
    obtain ⟨i, x, hgetx, hpx, hbefore, hset, hlen, hother⟩ :=
      updateFirst_some_spec _ _ db db' h
    by_cases hij : j = i
    · subst hij
      rw [hget] at hgetx
      injection hgetx with hxc
      subst hxc
      have hlt : j < db.length := by
        by_contra hge
        rw [List.get?_eq_none.mpr (by omega)] at hget
        exact Option.noConfusion hget
      rw [hset, List.get?_set_eq_of_lt _ hlt] at hget'
      injection hget' with hc'
      rw [← hc']
      by_cases hs : s = 0
      · simpa [applyCarStatusChoice, hs] using hav
      · simp [applyCarStatusChoice, hs]
    · rw [hother j hij, hget] at hget'
      injection hget' with hc'
      rw [← hc']
      exact hav

/-- Witness for C9: a nonzero status entry leaves an available car
available. -/
theorem updateCar_status_cannot_clear_witness :
    ({ carOne with available_status := true } : CarModel).available_status
      = true :=
  (updateCar_status_cannot_clear [carOne] (carOne.model_name) 5).2.2
    [{ carOne with available_status := true }] 0 carOne
    ({ carOne with available_status := true })
    (by decide) (by decide) (by decide) (by decide)

end CRS

namespace CRS

/- ---------------------------------------------------------------------
   enterUserData duplicate checks (src/main.c lines 851-905)
   --------------------------------------------------------------------- -/

/-- The contact-number check loop of enterUserData: read the next stored
record; if the candidate number equals that record's number, re-prompt for a
new number (the next list element of reentries) and continue with the NEXT
record; otherwise break out of the loop at once, accepting the current
candidate. Returns the number the loop leaves in the candidate record. When
the re-entry list runs dry the loop would block for input; the loop
structure up to that point is unaffected. (The stray fclose inside the
match branch of the source is a resource bug with no effect on the values
compared and is not modelled.) -/
def contactNumberCheckLoop : List Users → List String → String → String
  | [], _, candidate => candidate
  | recordedUser :: rest, reentries, candidate =>
    if candidate == recordedUser.number then
      match reentries with
      | [] => candidate
      | e :: es => contactNumberCheckLoop rest es e
    else candidate

/-- The username check loop of enterUserData, identical in shape to the
contact-number loop but comparing usernames. -/
def usernameCheckLoop : List Users → List String → String → String
  | [], _, candidate => candidate
  | recordedUser :: rest, reentries, candidate =>
    if candidate == recordedUser.username then
      match reentries with
      | [] => candidate
      | e :: es => usernameCheckLoop rest es e
    else candidate

/-- A second registered user whose phone and username the checks should
catch. -/
def userAlice : Users :=
  { fullname := "Alice A"
    address := "PKR"
    number := "9811111111"
    email := "alice@mail.com"
    username := "alice"
    password := "pw2" }

/-- C3: contrary to the claim, the duplicate checks break out of their scan
at the first non-matching record, so a candidate that reuses the phone
number (or username) of any record after the first is accepted with no
re-prompt, even though that number (username) is present in the database;
the comparison loops never look past the first record for a clean
candidate. -/
theorem enterUserData_duplicate_accepted :
    contactNumberCheckLoop [userBob, userAlice] [] (userAlice.number)
      = userAlice.number ∧
    userAlice.number ∈ [userBob, userAlice].map (fun u => u.number) ∧
    userAlice.number ≠ userBob.number ∧
    usernameCheckLoop [userBob, userAlice] [] (userAlice.username)
      = userAlice.username ∧
    userAlice.username ∈ [userBob, userAlice].map (fun u => u.username) := by
  decide

end CRS

namespace CRS

/- ---------------------------------------------------------------------
   removeUserByUsername (src/main.c lines 508-561) and
   removeCarModelByName (lines 710-786): delete by rebuild
   --------------------------------------------------------------------- -/

/-- A file system as an association list from path to file contents, enough
to model fopen(rb) = lookup, fopen(wb) = write, remove and rename. -/
abbrev FS (α : Type) := List (String × α)

/-- fopen in read mode / reading a whole record file: the contents at the
path, none when the file does not exist. -/
def fsLookup (fs : FS α) (path : String) : Option α :=
  (fs.find? (fun e => e.1 == path)).map (fun e => e.2)

/-- fopen in write mode plus the records written before fclose: create or
truncate the file at the path. -/
def fsWrite (fs : FS α) (path : String) (v : α) : FS α :=
  (path, v) :: fs.filter (fun e => !(e.1 == path))

/-- remove(path): drop the file; removing a missing path changes nothing
(the C code ignores or merely reports that error). -/
def fsRemove (fs : FS α) (path : String) : FS α :=
  fs.filter (fun e => !(e.1 == path))

/-- rename(src, dst): fails (none) when src does not exist, the condition
the C code tests with rename's return value. -/
def fsRename (fs : FS α) (src dst : String) : Option (FS α) :=
  match fsLookup fs src with
  | none => none
  | some v => some (fsWrite (fsRemove fs src) dst v)

/-- Path of the registered-users database (src/main.c). -/
def user_database : String := "data/registered_users.bin"

/-- Path of the car database (src/main.c). -/
def car_database : String := "data/car_database.db"

/-- The temp-file path removeUserByUsername CREATES (fopen wb) - and the
path removeCarModelByName passes to rename as its source. -/
def tempInData : String := "data/temp.dat"

/-- The temp-file path removeUserByUsername passes to remove and rename -
and the path removeCarModelByName CREATES. The two functions each create
the temp file under one of the two names and hand the other to rename. -/
def tempBare : String := "temp.dat"

/-- removeUserByUsername (src/main.c lines 508-561): read the user file,
copy every non-matching record to the temp file at data/temp.dat, then
remove the original and rename temp.dat (note the differing path) over it;
each failing step just reports and returns, leaving the file system as that
step left it. -/
def removeUserByUsername (fs : FS (List Users)) (usernameToRemove : String) :
    FS (List Users) :=
  match fsLookup fs user_database with
  | none => fs
  | some users =>
    let kept := users.filter (fun u => !(u.username == usernameToRemove))
    let userFound := users.any (fun u => u.username == usernameToRemove)
    let fs1 := fsWrite fs tempInData kept
    if userFound then
      let fs2 := fsRemove fs1 user_database
      match fsRename fs2 tempBare user_database with
      | none => fs2
      | some fs3 => fs3
    else
      fsRemove fs1 tempBare

/-- removeCarModelByName (src/main.c lines 710-786): list the cars with
their ordinal indices, read the selected index, copy every record whose
index differs to the temp file at temp.dat, then remove the original and
rename data/temp.dat (again the other path) over it. -/
def removeCarModelByName (fs : FS (List CarModel)) (selectedIndex : Int) :
    FS (List CarModel) :=
  match fsLookup fs car_database with
  | none => fs
  | some cars =>
    let kept := (cars.enum.filter
      (fun e => !((e.1 : Int) == selectedIndex))).map (fun e => e.2)
    let fs1 := fsWrite fs tempBare kept
    let fs2 := fsRemove fs1 car_database
    match fsRename fs2 tempInData car_database with
    | none => fs2
    | some fs3 => fs3

/-- C2: contrary to the claim, when the rename step is the one that fails
the original database does not survive: both delete-by-rebuild routines
remove the original before attempting the rename, and because each creates
its temp file under a different path than it renames, the rename does fail
and the run ends with the original database gone (its records only in the
stranded temp file). -/
theorem delete_rebuild_rename_failure_loses_original :
    fsLookup [(user_database, [userBob])] user_database = some [userBob] ∧
    fsRename (fsRemove (fsWrite [(user_database, [userBob])] tempInData [])
      user_database) tempBare user_database = none ∧
    fsLookup (removeUserByUsername [(user_database, [userBob])]
      (userBob.username)) user_database = none ∧
    fsLookup [(car_database, [carOne])] car_database = some [carOne] ∧
    fsRename (fsRemove (fsWrite [(car_database, [carOne])] tempBare [])
      car_database) tempInData car_database = none ∧
    fsLookup (removeCarModelByName [(car_database, [carOne])] 0)
      car_database = none := by
  decide

end CRS

namespace CRS

/- ---------------------------------------------------------------------
   Byte-level record store: addCar (src/main.c lines 331-375) writes one
   fixed-size record with fwrite; viewCars (lines 564-602) reads records
   back with fread until a short read
   --------------------------------------------------------------------- -/

/-- Byte-level image of `struct CarModel` as fwrite copies it: the two
50-byte and one 20-byte char arrays hold their NUL-free string bytes, the
size_t fields their 64-bit values, the double fields their 64-bit bit
patterns (the store only copies them, so the pattern is the field), and the
bool one byte. Compiler padding bytes carry no field data and are elided
from the layout; this changes no property of the round trip. -/
structure CarModelRec where
  model_name : List Nat
  company : List Nat
  year : Nat
  rental_rate : Nat
  passenger_capacity : Nat
  fuel_efficiency : Nat
  color : List Nat
  available_status : Bool
deriving DecidableEq, Inhabited

/-- A char array field of width w on disk: the string bytes, NUL-padded to
the full width. -/
def padZero (w : Nat) (s : List Nat) : List Nat :=
  s ++ List.replicate (w - s.length) 0

/-- A 64-bit field on disk, little endian. -/
def le8 (n : Nat) : List Nat :=
  [n % 256, n / 256 % 256, n / 256 ^ 2 % 256, n / 256 ^ 3 % 256,
   n / 256 ^ 4 % 256, n / 256 ^ 5 % 256, n / 256 ^ 6 % 256, n / 256 ^ 7 % 256]

/-- Value of a little-endian 8-byte field. -/
def fromLE8 (bs : List Nat) : Nat :=
  match bs with
  | [b0, b1, b2, b3, b4, b5, b6, b7] =>
    b0 + 256 * b1 + 256 ^ 2 * b2 + 256 ^ 3 * b3 + 256 ^ 4 * b4 +
      256 ^ 5 * b5 + 256 ^ 6 * b6 + 256 ^ 7 * b7
  | _ => 0

/-- Bytes of one CarModel record: 50 + 50 + 8 + 8 + 8 + 8 + 20 + 1. -/
def carRecordSize : Nat := 153

/-- The byte block fwrite(&car, sizeof(struct CarModel), 1, file) appends. -/
def encodeCar (c : CarModelRec) : List Nat :=
  padZero 50 c.model_name ++ padZero 50 c.company ++ le8 c.year ++
  le8 c.rental_rate ++ le8 c.passenger_capacity ++ le8 c.fuel_efficiency ++
  padZero 20 c.color ++ [if c.available_status then 1 else 0]

/-- Reading a char array field back: the bytes up to the first NUL. -/
def decodeStr (bs : List Nat) : List Nat :=
  bs.takeWhile (fun b => !(b == 0))

/-- The record fread fills from one record-sized block. -/
def decodeCar (bs : List Nat) : CarModelRec :=
  let m := bs.take 50
  let bs1 := bs.drop 50
  let comp := bs1.take 50
  let bs2 := bs1.drop 50
  let y := bs2.take 8
  let bs3 := bs2.drop 8
  let rate := bs3.take 8
  let bs4 := bs3.drop 8
  let cap := bs4.take 8
  let bs5 := bs4.drop 8
  let fe := bs5.take 8
  let bs6 := bs5.drop 8
  let col := bs6.take 20
  let bs7 := bs6.drop 20
  { model_name := decodeStr m
    company := decodeStr comp
    year := fromLE8 y
    rental_rate := fromLE8 rate
    passenger_capacity := fromLE8 cap
    fuel_efficiency := fromLE8 fe
    color := decodeStr col
    available_status := !(bs7.getD 0 0 == 0) }

/-- A representable char array value: strictly shorter than its width (room
for the terminating NUL) and made of nonzero bytes. -/
def validStr (w : Nat) (s : List Nat) : Prop :=
  s.length < w ∧ ∀ b ∈ s, 0 < b ∧ b < 256

instance (w : Nat) (s : List Nat) : Decidable (validStr w s) := by
  unfold validStr
  infer_instance

/-- A representable CarModel record: every char array fits its width and
every 64-bit field is in range. -/
def validCar (c : CarModelRec) : Prop :=
  validStr 50 c.model_name ∧ validStr 50 c.company ∧ validStr 20 c.color ∧
  c.year < 256 ^ 8 ∧ c.rental_rate < 256 ^ 8 ∧
  c.passenger_capacity < 256 ^ 8 ∧ c.fuel_efficiency < 256 ^ 8

instance (c : CarModelRec) : Decidable (validCar c) := by
  unfold validCar
  infer_instance

/-- addCar persistence step: fopen(ab) on the store file and one successful
fwrite of the record block (the claim ranges over successful appends). -/
def addCar (file : List Nat) (car : CarModelRec) : List Nat :=
  file ++ encodeCar car

/-- The read loop of viewCars: fread one record-sized block at a time,
stopping at the first short read (fread returning 0 when fewer than
record-size bytes remain). -/
def scanCars (file : List Nat) : List CarModelRec :=
  if h : carRecordSize ≤ file.length then
    decodeCar (file.take carRecordSize) :: scanCars (file.drop carRecordSize)
  else []
termination_by file.length
decreasing_by simp only [List.length_drop, carRecordSize] at *; omega

end CRS

namespace CRS

/-- A char array field that fits its width fills it exactly on disk. -/
theorem padZero_length (w : Nat) (s : List Nat) (h : s.length ≤ w) :
    (padZero w s).length = w := by
  simp [padZero]
  omega

/-- NUL-free bytes followed by any run of NULs read back as themselves. -/
theorem takeWhile_append_zeros (s : List Nat) (k : Nat)
    (h : ∀ b ∈ s, 0 < b) :
    (s ++ List.replicate k 0).takeWhile (fun b => !(b == 0)) = s := by
  induction s with
  | nil =>
    cases k with
    | zero => simp
    | succ m => simp [List.replicate_succ]
  | cons b t ih =>
    have hb : 0 < b := h b (List.mem_cons_self b t)
    have hbne : (!(b == 0)) = true := by
      simp only [Bool.not_eq_true', beq_eq_false_iff_ne, ne_eq]
      omega
    simp only [List.cons_append, List.takeWhile_cons, hbne, if_true]
    rw [ih (fun x hx => h x (List.mem_cons_of_mem b hx))]

/-- NUL-free string bytes survive NUL padding and read-back. -/
theorem decodeStr_padZero (w : Nat) (s : List Nat)
    (h : ∀ b ∈ s, 0 < b) : decodeStr (padZero w s) = s :=
  takeWhile_append_zeros s (w - s.length) h

/-- A 64-bit value survives the little-endian split and recombination. -/
theorem fromLE8_le8 (n : Nat) (h : n < 256 ^ 8) : fromLE8 (le8 n) = n := by
  simp only [le8, fromLE8]
  omega

/-- A representable record's byte block has exactly the record size. -/
theorem encodeCar_length (c : CarModelRec) (h : validCar c) :
    (encodeCar c).length = carRecordSize := by
  obtain ⟨h1, h2, h3, _⟩ := h
  simp [encodeCar, carRecordSize, le8,
    padZero_length 50 c.model_name (le_of_lt h1.1),
    padZero_length 50 c.company (le_of_lt h2.1),
    padZero_length 20 c.color (le_of_lt h3.1)]

/-- Field-for-field round trip of one record through its byte block. -/
theorem decodeCar_encodeCar (c : CarModelRec) (h : validCar c) :
    decodeCar (encodeCar c) = c := by
  obtain ⟨h1, h2, h3, hy, hr, hp, hf⟩ := h
  have l1 : (padZero 50 c.model_name).length = 50 :=
    padZero_length _ _ (le_of_lt h1.1)
  have l2 : (padZero 50 c.company).length = 50 :=
    padZero_length _ _ (le_of_lt h2.1)
  have l3 : (padZero 20 c.color).length = 20 :=
    padZero_length _ _ (le_of_lt h3.1)
  have l8 : ∀ n : Nat, (le8 n).length = 8 := fun n => by simp [le8]
  simp only [decodeCar, encodeCar, List.append_assoc]
  rw [List.take_left' l1, List.drop_left' l1,
      List.take_left' l2, List.drop_left' l2,
      List.take_left' (l8 c.year), List.drop_left' (l8 c.year),
      List.take_left' (l8 c.rental_rate), List.drop_left' (l8 c.rental_rate),
      List.take_left' (l8 c.passenger_capacity),
      List.drop_left' (l8 c.passenger_capacity),
      List.take_left' (l8 c.fuel_efficiency),
      List.drop_left' (l8 c.fuel_efficiency),
      List.take_left' l3, List.drop_left' l3]
  rw [decodeStr_padZero _ _ (fun b hb => (h1.2 b hb).1),
      decodeStr_padZero _ _ (fun b hb => (h2.2 b hb).1),
      decodeStr_padZero _ _ (fun b hb => (h3.2 b hb).1),
      fromLE8_le8 _ hy, fromLE8_le8 _ hr, fromLE8_le8 _ hp, fromLE8_le8 _ hf]
  have hflag :
      (!((([if c.available_status then 1 else 0] : List Nat).getD 0 0) == 0))
        = c.available_status := by
    cases c.available_status <;> rfl
  rw [hflag]

/-- Scanning an empty store yields no records. -/
theorem scanCars_nil : scanCars [] = [] := by
  rw [scanCars]
  simp [carRecordSize]

/-- Scanning a store that starts with one representable record block yields
that record and continues behind it. -/
theorem scanCars_cons (c : CarModelRec) (rest : List Nat) (h : validCar c) :
    scanCars (encodeCar c ++ rest) = decodeCar (encodeCar c) :: scanCars rest := by
  have hlen := encodeCar_length c h
  rw [scanCars]
  rw [dif_pos (by simp [hlen, carRecordSize])]
  rw [List.take_left' hlen, List.drop_left' hlen]

/-- The store file after a sequence of appends: the byte blocks of the
records, in append order, after the initial contents. -/
theorem foldl_addCar (rs : List CarModelRec) :
    ∀ acc : List Nat, rs.foldl addCar acc = acc ++ (rs.map encodeCar).flatten := by
  induction rs with
  | nil => intro acc; simp
  | cons r t ih =>
    intro acc
    simp only [List.foldl_cons, List.map_cons, List.flatten_cons, ih, addCar,
      List.append_assoc]

/-- C7: appending any sequence of representable CarModel records to an
empty store and scanning the file back yields exactly those records in
append order, field-for-field identical, and the scanned count equals the
number of appends. -/
theorem store_append_scan_roundtrip (rs : List CarModelRec)
    (h : ∀ r ∈ rs, validCar r) :
    scanCars (rs.foldl addCar []) = rs ∧
    (scanCars (rs.foldl addCar [])).length = rs.length := by
  have key : scanCars ((rs.map encodeCar).flatten) = rs := by
    induction rs with
    | nil => simpa using scanCars_nil
    | cons r t ih =>
      have hr : validCar r := h r (List.mem_cons_self r t)
      simp only [List.map_cons, List.flatten_cons]
      rw [scanCars_cons r _ hr, decodeCar_encodeCar r hr,
        ih (fun x hx => h x (List.mem_cons_of_mem r hx))]
  rw [foldl_addCar rs [], List.nil_append]
  exact ⟨key, by rw [key]⟩

/-- A concrete representable record for the witness below. -/
def carRecA : CarModelRec :=
  { model_name := [67, 105, 118]
    company := [72, 111]
    year := 2020
    rental_rate := 4680
    passenger_capacity := 4
    fuel_efficiency := 30
    color := [114, 101, 100]
    available_status := true }

/-- A second concrete representable record for the witness below. -/
def carRecB : CarModelRec :=
  { carRecA with model_name := [88], rental_rate := 99, available_status := false }

/-- Witness for C7: a two-record append sequence round-trips. -/
theorem store_append_scan_roundtrip_witness :
    scanCars ([carRecA, carRecB].foldl addCar []) = [carRecA, carRecB] ∧
    (scanCars ([carRecA, carRecB].foldl addCar [])).length
      = List.length [carRecA, carRecB] :=
  store_append_scan_roundtrip [carRecA, carRecB] (by decide)

end CRS

namespace CRS

/- ---------------------------------------------------------------------
   generateUniqueRentalID (src/main.c lines 313-326)
   --------------------------------------------------------------------- -/

/-- The `%05d` rendering of snprintf for the values reaching it (always
below 100000 after the modulus): five decimal digits, zero padded. -/
def format5 (n : Nat) : String :=
  String.mk [Char.ofNat (48 + n / 10000 % 10), Char.ofNat (48 + n / 1000 % 10),
    Char.ofNat (48 + n / 100 % 10), Char.ofNat (48 + n / 10 % 10),
    Char.ofNat (48 + n % 10)]

/-- The do-while draw of generateUniqueRentalID: take rand() values modulo
100000 until one is at least 10000; rands is the stream of rand() results,
and none models a stream that never produces a five-digit value (the C loop
would spin). -/
def drawRentalID (rands : List Nat) : Option Nat :=
  (rands.map (fun r => r % 100000)).find? (fun n => decide (10000 ≤ n))

/-- generateUniqueRentalID: the drawn five-digit number rendered after the
prefix by snprintf(rentlID, 10, ...), whose size bound keeps at most the
first 9 characters of the formatted text. -/
def generateUniqueRentalID (pre : String) (rands : List Nat) : Option String :=
  (drawRentalID rands).map
    (fun uniqueID => String.mk ((pre.data ++ (format5 uniqueID).data).take 9))

/-- C8 counterexample: with a five-character prefix the 10-byte snprintf
buffer truncates the result to 9 characters, so the returned string is not
the prefix followed by any five-digit number. -/
theorem generateUniqueRentalID_truncates :
    ¬ ∃ n : Nat, 10000 ≤ n ∧ n ≤ 99999 ∧
      generateUniqueRentalID ("ABCDE") [12345]
        = some (String.mk (("ABCDE").data ++ (format5 n).data)) := by
  rintro ⟨n, -, -, h⟩
  have hd := congrArg (fun s => s.data.length) (Option.some.inj h)
  simp only at hd
  rw [show (String.mk (((("ABCDE")).data ++ (format5 12345).data).take 9)).data.length
       = 9 from rfl] at hd
  rw [show (String.mk ((("ABCDE")).data ++ (format5 n).data)).data.length
       = 10 from rfl] at hd
  exact absurd hd (by decide)

/-- C8 (amended): whenever the random stream yields a value and the prefix
has at most four characters (so that prefix plus five digits fits the
9-character snprintf budget - the program only ever passes the prefix R),
generateUniqueRentalID returns the prefix followed by the drawn five-digit
number, which lies between 10000 and 99999 inclusive. -/
theorem generateUniqueRentalID_spec (pre : String) (rands : List Nat) (n : Nat)
    (hpre : pre.length ≤ 4) (hdraw : drawRentalID rands = some n) :
    10000 ≤ n ∧ n ≤ 99999 ∧
    generateUniqueRentalID pre rands
      = some (String.mk (pre.data ++ (format5 n).data)) := by
  have hp : 10000 ≤ n := by
    have := List.find?_some hdraw
    simpa using this
  have hmem : n ∈ rands.map (fun r => r % 100000) :=
    List.mem_of_find?_eq_some hdraw
  have hlt : n ≤ 99999 := by
    obtain ⟨r, -, hrn⟩ := List.mem_map.mp hmem
    omega
  refine ⟨hp, hlt, ?_⟩
  unfold generateUniqueRentalID
  rw [hdraw, Option.map_some']
  have hfive : (format5 n).data.length = 5 := rfl
  have hlen : (pre.data ++ (format5 n).data).length ≤ 9 := by
    rw [List.length_append, hfive]
    have : pre.data.length = pre.length := rfl
    omega
  rw [List.take_of_length_le hlen]

/-- Witness for C8 (amended): the prefix R the program uses, with a stream
whose first draw is already five digits. -/
theorem generateUniqueRentalID_spec_witness :
    10000 ≤ 12345 ∧ 12345 ≤ 99999 ∧
    generateUniqueRentalID ("R") [12345]
      = some (String.mk (("R").data ++ (format5 12345).data)) :=
  generateUniqueRentalID_spec ("R") [12345] 12345 (by decide) (by decide)

/- ---------------------------------------------------------------------
   registerNewUsers (src/main.c lines 928-964) and the sequence counter
   (loadHighestRecordedNumber / saveHighestRecordedNumber, lines 226-251)
   --------------------------------------------------------------------- -/

/-- loadHighestRecordedNumber: the integer in the counter file, 0 when the
file is absent or unparsable. -/
def loadHighestRecordedNumber (counterFile : Option Nat) : Nat :=
  counterFile.getD 0

/-- saveHighestRecordedNumber: overwrite the counter file with the value. -/
def saveHighestRecordedNumber (n : Nat) : Option Nat :=
  some n

/-- registerNewUsers: load the counter, collect the new user (enterUserData),
attempt the append to the user database - on failure only a message is
printed - then increment the counter and persist it unconditionally.
writeOk tells whether the fwrite succeeded; the returned pair is the
persisted counter file and the user database contents. -/
def registerNewUsers (counterFile : Option Nat) (db : List Users)
    (newUser : Users) (writeOk : Bool) : Option Nat × List Users :=
  let numUsers := loadHighestRecordedNumber counterFile
  let db2 := if writeOk then db ++ [newUser] else db
  (saveHighestRecordedNumber (numUsers + 1), db2)

/-- C10: every registerNewUsers invocation that reaches the write step
persists counter + 1, whether or not the append succeeded; on a failed
append the database is unchanged, so a counter that was in sync with the
record count is persisted as one greater than the number of records actually
stored. -/
theorem registerNewUsers_counter (counterFile : Option Nat) (db : List Users)
    (u : Users) (writeOk : Bool) :
    (registerNewUsers counterFile db u writeOk).1
      = some (loadHighestRecordedNumber counterFile + 1) ∧
    (registerNewUsers counterFile db u false).2 = db ∧
    (loadHighestRecordedNumber counterFile = db.length →
      (registerNewUsers counterFile db u false).1
        = some ((registerNewUsers counterFile db u false).2.length + 1)) := by
  refine ⟨rfl, rfl, ?_⟩
  intro hsync
  simp [registerNewUsers, saveHighestRecordedNumber, hsync]

/-- Witness for C10: counter 1 in sync with a one-record database, failed
append: the persisted counter exceeds the stored record count by one. -/
theorem registerNewUsers_counter_witness :
    (registerNewUsers (some 1) [userBob] userAlice false).1
      = some ((registerNewUsers (some 1) [userBob] userAlice false).2.length + 1) :=
  (registerNewUsers_counter (some 1) [userBob] userAlice false).2.2 (by decide)

end CRS
